import Mathlib

set_option linter.all false

/-
  Verification development for the signal-daily-digest pipeline.

  Shallow embedding of the core pipeline components:
  - the run orchestrator (src/server/scheduler.js, runDailyDigest)
  - the JSONL artifact log (appendDigest)
  - the content store upsert (src/server/db.js, saveArticle)
  - the LRU artifact cache (src/server/db.js, LRUCache)
  - the persistent archive (src/server/db.js, archiveInsights / getTodaysInsights)
  - the fetch phase (src/server/rssFetcher.js: createLimiter, fetchRSS, fetchAllFeeds)
  - the scrape adapters (src/server/newsroomScraper.js, scrapeNewsroom)

  Timestamps are modelled as Int milliseconds since the epoch; JavaScript
  Date subtraction and ISO-string comparisons reduce to Int comparisons.
  Asynchronous external effects (network fetches, SQL queries, email
  delivery) are modelled as explicit inputs: each run receives the values
  the collaborators would have produced.
-/

namespace SignalDigest

/-- A digest artifact as built by the orchestrator and the insights
generator (scheduler.js lines 39-47 give the empty shape). -/
structure Digest where
  date : String
  top_insights : List String
  competitive_signals : List String
  worth_reading : List String
  nothing_notable : Bool
  article_count : Nat
  source_count : Nat
deriving Repr, DecidableEq

/-- The in-memory run state exported as digestState (scheduler.js lines 11-17). -/
structure DigestState where
  lastDigestRun : Option Int
  articleCount : Nat
  emailStatus : Option String
  nextScheduledRun : Option Int
  lastError : Option String
deriving Repr, DecidableEq

/-- An article object as handed to saveArticle (rssFetcher.js lines 265-275).
Fields that JavaScript may leave undefined are Options; the saveArticle
defaulting mirrors the `x or fallback` coalescing in db.js lines 90-97. -/
structure Article where
  title : Option String
  link : Option String
  pubDate : Option Int
  source : Option String
  category : Option String
  summary : Option String
  originalContent : Option String
  imageUrl : Option String
deriving Repr, DecidableEq

/-- The external inputs one pipeline run consumes: the 24-hour window query
result, the generated digest, the status strings the delivery collaborator
returns on each of the two possible send calls, and the clock readings. -/
structure RunEnv where
  articles : List Article
  digest : Digest
  emailStatusEmpty : String
  emailStatusDigest : String
  now : Int
  today : String
deriving Repr, DecidableEq

/-- The nothing-notable artifact built when the query window is empty
(scheduler.js lines 39-47). -/
def emptyDigest (today : String) : Digest :=
  { date := today
    top_insights := []
    competitive_signals := []
    worth_reading := []
    nothing_notable := true
    article_count := 0
    source_count := 0 }

/-- Append one digest as one line to the JSONL artifact log
(archiver appendDigest: one JSON object per line, appended at the end). -/
def appendDigest (log : List Digest) (d : Digest) : List Digest :=
  log ++ [d]

/-- Result of one completed (non-throwing) pipeline run: the new run state,
the new artifact log, and the digests handed to the delivery collaborator. -/
structure RunResult where
  state : DigestState
  log : List Digest
  delivered : List Digest
deriving Repr, DecidableEq

/-- One completed run of runDailyDigest (scheduler.js lines 22-85), on the
path where no step throws.  Mirrors the control flow: set articleCount;
if the window is empty, email the nothing-notable digest, set
lastDigestRun and return (no appendDigest, lastError untouched);
otherwise email the digest, append it to the JSONL log, set lastDigestRun
and clear lastError. -/
def runDailyDigest (st : DigestState) (log : List Digest) (env : RunEnv) : RunResult :=
  let st1 := { st with articleCount := env.articles.length }
  if env.articles.length = 0 then
    let d := emptyDigest env.today
    { state := { st1 with emailStatus := some env.emailStatusEmpty
                          lastDigestRun := some env.now }
      log := log
      delivered := [d] }
  else
    { state := { st1 with emailStatus := some env.emailStatusDigest
                          lastDigestRun := some env.now
                          lastError := none }
      log := appendDigest log env.digest
      delivered := [env.digest] }

/-- Sample state with a stale error left by an earlier failed run. -/
def staleErrorState : DigestState :=
  { lastDigestRun := none
    articleCount := 7
    emailStatus := none
    nextScheduledRun := none
    lastError := some "previous failure" }

/-- Sample environment for a run whose 24-hour query window is empty. -/
def emptyWindowEnv : RunEnv :=
  { articles := []
    digest := emptyDigest "2026-01-02"
    emailStatusEmpty := "sent"
    emailStatusDigest := "sent"
    now := 1767312000000
    today := "2026-01-02" }

/-- Sample article for nonempty-window runs. -/
def sampleArticle : Article :=
  { title := some "Rate update"
    link := some "https://example.com/a"
    pubDate := some 1767300000000
    source := some "Example Feed"
    category := some "mortgage"
    summary := some "short"
    originalContent := some "body"
    imageUrl := none }

/-- Sample environment for a run whose window holds one article and whose
delivery collaborator reports failure. -/
def oneArticleEnv : RunEnv :=
  { articles := [sampleArticle]
    digest := { date := "2026-01-02"
                top_insights := ["insight"]
                competitive_signals := []
                worth_reading := []
                nothing_notable := false
                article_count := 1
                source_count := 1 }
    emailStatusEmpty := "sent"
    emailStatusDigest := "failed"
    now := 1767312000000
    today := "2026-01-02" }

/-- C1 counterexample: a run that completes with an empty 24-hour query
window attempts delivery (the nothing-notable digest is handed to the
delivery collaborator) yet appends zero lines, not one, to the JSONL
artifact log - scheduler.js returns at line 52 before reaching
appendDigest at line 72. -/
theorem runDailyDigest_empty_window_appends_no_line :
    (runDailyDigest staleErrorState [] emptyWindowEnv).delivered.length = 1 ∧
    (runDailyDigest staleErrorState [] emptyWindowEnv).log = [] ∧
    ¬ (runDailyDigest staleErrorState [] emptyWindowEnv).log.length = 1 := by
  decide

/-- C1 amended: a completed run whose query window is nonempty appends
exactly one line, the run digest, to the artifact log after delivery is
attempted, whatever status the delivery collaborator reports; a completed
run whose window is empty invokes delivery with the nothing-notable
artifact but appends no line. -/
theorem runDailyDigest_appendOneLine
    (st : DigestState) (log : List Digest) (env : RunEnv) :
    (env.articles ≠ [] →
      (runDailyDigest st log env).log = log ++ [env.digest] ∧
      (runDailyDigest st log env).delivered = [env.digest]) ∧
    (env.articles = [] →
      (runDailyDigest st log env).log = log ∧
      (runDailyDigest st log env).delivered = [emptyDigest env.today]) := by
  constructor
  · intro h
    have hlen : env.articles.length ≠ 0 := by
      simpa using fun hc => h (List.length_eq_zero.mp hc)
    simp [runDailyDigest, appendDigest, hlen]
  · intro h
    simp [runDailyDigest, h]

/-- C1 witness: at the concrete one-article environment with a failed
delivery, the run appends exactly its digest as one line. -/
theorem runDailyDigest_appendOneLine_witness :
    (runDailyDigest staleErrorState [] oneArticleEnv).log = [] ++ [oneArticleEnv.digest] ∧
    (runDailyDigest staleErrorState [] oneArticleEnv).delivered = [oneArticleEnv.digest] :=
  (runDailyDigest_appendOneLine staleErrorState [] oneArticleEnv).1 (by decide)

/-- C10 counterexample: a run that completes without a pipeline-level error
but with an empty query window leaves the last-error field untouched
instead of clearing it - the empty branch of runDailyDigest (scheduler.js
lines 38-53) sets lastDigestRun, articleCount and emailStatus but never
assigns lastError. -/
theorem runDailyDigest_empty_window_keeps_stale_error :
    (runDailyDigest staleErrorState [] emptyWindowEnv).state.lastError
        = some "previous failure" ∧
    ¬ (runDailyDigest staleErrorState [] emptyWindowEnv).state.lastError = none := by
  decide

/-- C10 amended: after a completed run with a nonempty window the run state
has lastError cleared and lastDigestRun, articleCount and emailStatus
reflecting the run; after a completed empty-window run lastDigestRun,
articleCount and emailStatus reflect the run but lastError keeps its
previous value. -/
theorem runDailyDigest_state_update
    (st : DigestState) (log : List Digest) (env : RunEnv) :
    (env.articles ≠ [] →
      (runDailyDigest st log env).state.lastError = none ∧
      (runDailyDigest st log env).state.lastDigestRun = some env.now ∧
      (runDailyDigest st log env).state.articleCount = env.articles.length ∧
      (runDailyDigest st log env).state.emailStatus = some env.emailStatusDigest) ∧
    (env.articles = [] →
      (runDailyDigest st log env).state.lastError = st.lastError ∧
      (runDailyDigest st log env).state.lastDigestRun = some env.now ∧
      (runDailyDigest st log env).state.articleCount = 0 ∧
      (runDailyDigest st log env).state.emailStatus = some env.emailStatusEmpty) := by
  constructor
  · intro h
    have hlen : env.articles.length ≠ 0 := by
      simpa using fun hc => h (List.length_eq_zero.mp hc)
    simp [runDailyDigest, hlen]
  · intro h
    simp [runDailyDigest, h]

/-- C10 witness: at the concrete one-article environment the completed run
clears lastError and records the run facts. -/
theorem runDailyDigest_state_update_witness :
    (runDailyDigest staleErrorState [] oneArticleEnv).state.lastError = none ∧
    (runDailyDigest staleErrorState [] oneArticleEnv).state.lastDigestRun
        = some oneArticleEnv.now ∧
    (runDailyDigest staleErrorState [] oneArticleEnv).state.articleCount
        = oneArticleEnv.articles.length ∧
    (runDailyDigest staleErrorState [] oneArticleEnv).state.emailStatus
        = some oneArticleEnv.emailStatusDigest :=
  (runDailyDigest_state_update staleErrorState [] oneArticleEnv).1 (by decide)

/-- JavaScript string coalescing `s or empty`: an absent or empty string
becomes the empty string (db.js lines 90-94). -/
def orEmpty (s : Option String) : String := s.getD ""

/-- A stored row of the articles table (db.js lines 16-28).  createdAt and
savedAt take the insertion clock (DEFAULT CURRENT_TIMESTAMP) and are not in
the ON CONFLICT update list, so they carry the first-seen timestamp. -/
structure ArticleRow where
  link : String
  title : String
  source : String
  category : String
  summary : String
  originalContent : String
  imageUrl : Option String
  pubDate : Int
  savedAt : Int
  createdAt : Int
deriving Repr, DecidableEq

/-- The row an upsert of a not-yet-stored identity inserts: the VALUES list
with the defaulted parameters of db.js lines 89-98, where saved_at and
created_at take DEFAULT CURRENT_TIMESTAMP of the insertion clock. -/
def insertedRow (a : Article) (t : Int) : ArticleRow :=
  { link := orEmpty a.link
    title := orEmpty a.title
    source := orEmpty a.source
    category := orEmpty a.category
    summary := (orEmpty a.summary).take 5000
    originalContent := (orEmpty a.originalContent).take 5000
    imageUrl := a.imageUrl
    pubDate := a.pubDate.getD t
    savedAt := t
    createdAt := t }

/-- Overwrite of exactly the five mutable columns by an upsert hitting an
existing identity: the DO UPDATE SET list of db.js lines 82-87 (title,
category, summary, original_content, image_url; link, pub_date, source,
saved_at, created_at are not in the list and stay). -/
def mutableOf (a : Article) (r : ArticleRow) : ArticleRow :=
  { r with title := orEmpty a.title
           category := orEmpty a.category
           summary := (orEmpty a.summary).take 5000
           originalContent := (orEmpty a.originalContent).take 5000
           imageUrl := a.imageUrl }

/-- saveArticle (db.js lines 75-107): INSERT with ON CONFLICT (link)
DO UPDATE.  The store is the articles table keyed by link; on conflict only
the five mutable columns change (mutableOf), otherwise a full row with the
defaulted values is inserted (insertedRow). -/
def saveArticle (store : List ArticleRow) (a : Article) (now : Int) : List ArticleRow :=
  let link := orEmpty a.link
  if (store.find? (fun r => r.link = link)).isSome then
    store.map (fun r => if r.link = link then mutableOf a r else r)
  else
    store ++ [insertedRow a now]

/-- Fold a sequence of timestamped upserts through saveArticle. -/
def upsertAll (store : List ArticleRow) : List (Article × Int) → List ArticleRow
  | [] => store
  | p :: rest => upsertAll (saveArticle store p.1 p.2) rest

/-- The single row a sequence of same-identity upserts converges on. -/
def expectedRow (a0 : Article) (t0 : Int) (seq : List (Article × Int)) : ArticleRow :=
  seq.foldl (fun r p => mutableOf p.1 r) (insertedRow a0 t0)

lemma mutableOf_link (a : Article) (r : ArticleRow) : (mutableOf a r).link = r.link := rfl

lemma expectedRow_immutables (a0 : Article) (t0 : Int) (seq : List (Article × Int)) :
    (expectedRow a0 t0 seq).link = orEmpty a0.link ∧
    (expectedRow a0 t0 seq).createdAt = t0 ∧
    (expectedRow a0 t0 seq).savedAt = t0 ∧
    (expectedRow a0 t0 seq).pubDate = a0.pubDate.getD t0 ∧
    (expectedRow a0 t0 seq).source = orEmpty a0.source := by
  have h : ∀ (seq : List (Article × Int)) (r : ArticleRow),
      (seq.foldl (fun r p => mutableOf p.1 r) r).link = r.link ∧
      (seq.foldl (fun r p => mutableOf p.1 r) r).createdAt = r.createdAt ∧
      (seq.foldl (fun r p => mutableOf p.1 r) r).savedAt = r.savedAt ∧
      (seq.foldl (fun r p => mutableOf p.1 r) r).pubDate = r.pubDate ∧
      (seq.foldl (fun r p => mutableOf p.1 r) r).source = r.source := by
    intro seq
    induction seq with
    | nil => intro r; exact ⟨rfl, rfl, rfl, rfl, rfl⟩
    | cons p rest ih =>
      intro r
      simpa [List.foldl_cons, mutableOf] using ih (mutableOf p.1 r)
  simpa [expectedRow, insertedRow] using h seq (insertedRow a0 t0)

lemma filter_link_map_update (store : List ArticleRow) (l : String)
    (f : ArticleRow → ArticleRow) (hf : ∀ r, (f r).link = r.link) :
    (store.map (fun r => if r.link = l then f r else r)).filter
        (fun r => decide (r.link = l))
      = (store.filter (fun r => decide (r.link = l))).map f := by
  induction store with
  | nil => rfl
  | cons r rest ih =>
    by_cases h : r.link = l
    · simp [h, hf, List.filter_cons, ih]
    · simp [h, List.filter_cons, ih]

lemma find?_isSome_of_filter_singleton (store : List ArticleRow) (l : String)
    (row : ArticleRow)
    (hrow : store.filter (fun r => decide (r.link = l)) = [row]) :
    (store.find? (fun r => r.link = l)).isSome := by
  have hmem : row ∈ store.filter (fun r => decide (r.link = l)) := by
    rw [hrow]; exact List.mem_singleton.mpr rfl
  have := List.of_mem_filter hmem
  rw [List.find?_isSome]
  exact ⟨row, List.mem_of_mem_filter hmem, this⟩

/-- One update step: if the store holds exactly one row of identity l, a
same-identity upsert leaves exactly the mutably-overwritten row. -/
lemma saveArticle_update_step (store : List ArticleRow) (a : Article) (t : Int)
    (row : ArticleRow)
    (hl : orEmpty a.link = row.link)
    (hrow : store.filter (fun r => decide (r.link = row.link)) = [row]) :
    (saveArticle store a t).filter (fun r => decide (r.link = row.link))
      = [mutableOf a row] := by
  have hsome := find?_isSome_of_filter_singleton store row.link row hrow
  simp only [saveArticle, hl, hsome, if_true]
  rw [filter_link_map_update store row.link (mutableOf a) (fun r => rfl), hrow]
  rfl

/-- Upserting an identity not yet stored inserts exactly one row for it. -/
lemma saveArticle_insert_step (store : List ArticleRow) (a : Article) (t : Int)
    (hfresh : ∀ r ∈ store, r.link ≠ orEmpty a.link) :
    (saveArticle store a t).filter (fun r => decide (r.link = orEmpty a.link))
      = [insertedRow a t] := by
  have hnone : store.find? (fun r => r.link = orEmpty a.link) = none := by
    rw [List.find?_eq_none]
    intro r hr
    simpa using hfresh r hr
  have hnil : store.filter (fun r => decide (r.link = orEmpty a.link)) = [] := by
    rw [List.filter_eq_nil_iff]
    intro r hr
    simpa using hfresh r hr
  simp only [saveArticle, hnone, Option.isSome_none, Bool.false_eq_true, if_false]
  rw [List.filter_append, hnil]
  simp [insertedRow]

lemma upsertAll_same_link (seq : List (Article × Int)) :
    ∀ (store : List ArticleRow) (row : ArticleRow),
    (∀ p ∈ seq, orEmpty p.1.link = row.link) →
    store.filter (fun r => decide (r.link = row.link)) = [row] →
    (upsertAll store seq).filter (fun r => decide (r.link = row.link))
      = [seq.foldl (fun r p => mutableOf p.1 r) row] := by
  induction seq with
  | nil => intro store row _ hrow; simpa using hrow
  | cons p rest ih =>
    intro store row hsame hrow
    have hstep := saveArticle_update_step store p.1 p.2 row
      (hsame p (List.mem_cons_self p rest)) hrow
    have hlink : (mutableOf p.1 row).link = row.link := rfl
    have hrest : ∀ q ∈ rest, orEmpty q.1.link = (mutableOf p.1 row).link := by
      intro q hq
      rw [hlink]
      exact hsame q (List.mem_cons_of_mem p hq)
    have := ih (saveArticle store p.1 p.2) (mutableOf p.1 row) hrest
      (by rw [hlink]; exact hstep)
    rw [hlink] at this
    simpa [upsertAll, List.foldl_cons] using this

/-- C3: for any sequence of upserts sharing one canonical identity, applied
to a store with no row of that identity, the store afterwards holds exactly
one row for the identity; that row carries the first upsert timestamp as
its first-seen columns (createdAt, savedAt) and the first upsert pubDate
and source, while its mutable columns are the iterated overwrites of the
later upserts and its link is the shared identity. -/
theorem saveArticle_dedup_invariant (store : List ArticleRow)
    (a0 : Article) (t0 : Int) (seq : List (Article × Int))
    (hsame : ∀ p ∈ seq, orEmpty p.1.link = orEmpty a0.link)
    (hfresh : ∀ r ∈ store, r.link ≠ orEmpty a0.link) :
    (upsertAll store ((a0, t0) :: seq)).filter
        (fun r => decide (r.link = orEmpty a0.link))
      = [expectedRow a0 t0 seq] ∧
    (expectedRow a0 t0 seq).link = orEmpty a0.link ∧
    (expectedRow a0 t0 seq).createdAt = t0 ∧
    (expectedRow a0 t0 seq).savedAt = t0 ∧
    (expectedRow a0 t0 seq).pubDate = a0.pubDate.getD t0 := by
  obtain ⟨hlink, hcreated, hsaved, hpub, _⟩ := expectedRow_immutables a0 t0 seq
  refine ⟨?_, hlink, hcreated, hsaved, hpub⟩
  have hins := saveArticle_insert_step store a0 t0 hfresh
  have hrowlink : (insertedRow a0 t0).link = orEmpty a0.link := rfl
  have hsame2 : ∀ p ∈ seq, orEmpty p.1.link = (insertedRow a0 t0).link := by
    intro p hp; rw [hrowlink]; exact hsame p hp
  have := upsertAll_same_link seq (saveArticle store a0 t0) (insertedRow a0 t0)
    hsame2 (by rw [hrowlink]; exact hins)
  rw [hrowlink] at this
  simpa [upsertAll, expectedRow] using this

/-- Second upsert of the same identity, with changed mutable fields. -/
def sampleArticleV2 : Article :=
  { title := some "Rate update revised"
    link := some "https://example.com/a"
    pubDate := some 1767390000000
    source := some "Example Feed"
    category := some "housing"
    summary := some "longer"
    originalContent := some "new body"
    imageUrl := some "https://img.example.com/1.jpg" }

/-- C3 witness: two upserts of the same link leave exactly one row, with
first-seen timestamp from the first upsert and mutable fields from the
second. -/
theorem saveArticle_dedup_invariant_witness :
    (upsertAll [] ((sampleArticle, 100) :: [(sampleArticleV2, 200)])).filter
        (fun r => decide (r.link = orEmpty sampleArticle.link))
      = [expectedRow sampleArticle 100 [(sampleArticleV2, 200)]] ∧
    (expectedRow sampleArticle 100 [(sampleArticleV2, 200)]).link
      = orEmpty sampleArticle.link ∧
    (expectedRow sampleArticle 100 [(sampleArticleV2, 200)]).createdAt = 100 ∧
    (expectedRow sampleArticle 100 [(sampleArticleV2, 200)]).savedAt = 100 ∧
    (expectedRow sampleArticle 100 [(sampleArticleV2, 200)]).pubDate
      = sampleArticle.pubDate.getD 100 :=
  saveArticle_dedup_invariant [] sampleArticle 100 [(sampleArticleV2, 200)]
    (by decide) (by simp)

/-- Article object whose link is absent, as a scraper may produce
(newsroomScraper.js line 176 can yield an empty link). -/
def noLinkArticle : Article :=
  { title := some "Untitled press release"
    link := none
    pubDate := some 0
    source := some "ICE Mortgage Technology"
    category := some "competitor-intel"
    summary := some ""
    originalContent := some ""
    imageUrl := none }

/-- C9 counterexample: upserting a record with a missing identity stores a
row whose link is the empty string - db.js line 91 coalesces a missing
link to the empty string and the empty string satisfies the NOT NULL
constraint, so the store does contain a Record with empty canonical
identity. -/
theorem saveArticle_stores_empty_identity :
    (saveArticle [] noLinkArticle 5).map (fun r => r.link) = [""] ∧
    ¬ (saveArticle [] noLinkArticle 5).filter (fun r => decide (r.link = "")) = [] := by
  constructor
  · rfl
  · decide

/-- C9 amended: an upsert whose record identity is empty or missing stores
or updates a Record under the empty-string canonical identity exactly as
for any other identity: if the store held at most one empty-identity row
before, it holds exactly one afterwards. -/
theorem saveArticle_empty_identity_collapses (store : List ArticleRow)
    (a : Article) (now : Int)
    (hmissing : a.link = none ∨ a.link = some "")
    (hone : (store.filter (fun r => decide (r.link = ""))).length ≤ 1) :
    ((saveArticle store a now).filter (fun r => decide (r.link = ""))).length = 1 := by
  have hl : orEmpty a.link = "" := by
    rcases hmissing with h | h <;> simp [orEmpty, h]
  rcases hcase : store.filter (fun r => decide (r.link = "")) with _ | ⟨row, rest⟩
  · have hfresh : ∀ r ∈ store, r.link ≠ orEmpty a.link := by
      intro r hr
      rw [hl]
      have := List.filter_eq_nil_iff.mp hcase r hr
      simpa using this
    have hins := saveArticle_insert_step store a now hfresh
    rw [hl] at hins
    rw [hins]
    rfl
  · have hlen := hone
    rw [hcase] at hlen
    have hrest : rest = [] := by
      cases rest with
      | nil => rfl
      | cons x xs =>
        exfalso
        rw [List.length_cons, List.length_cons] at hlen
        omega
    have hrowlink : row.link = "" := by
      have hmem : row ∈ store.filter (fun r => decide (r.link = "")) := by
        rw [hcase]; exact List.mem_cons_self row rest
      simpa using List.of_mem_filter hmem
    have hsingle : store.filter (fun r => decide (r.link = row.link)) = [row] := by
      rw [hrowlink, hcase, hrest]
    have hupd := saveArticle_update_step store a now row (by rw [hl, hrowlink]) hsingle
    rw [hrowlink] at hupd
    rw [hupd]
    rfl

/-- C9 witness: after upserting the linkless article twice into an empty
store, exactly one empty-identity row exists. -/
theorem saveArticle_empty_identity_collapses_witness :
    ((saveArticle (saveArticle [] noLinkArticle 5) noLinkArticle 9).filter
        (fun r => decide (r.link = ""))).length = 1 :=
  saveArticle_empty_identity_collapses (saveArticle [] noLinkArticle 5)
    noLinkArticle 9 (Or.inl rfl) (by decide)

/-- State of the closure created by createLimiter (rssFetcher.js lines
125-146): the pending queue (submission order), the admitted operations
still in flight (active counts them), the log of admissions in order, and
the completed operations with their reported outcome.  Operations are
identified by numbers. -/
structure LimiterState where
  queue : List Nat
  running : List Nat
  admitted : List Nat
  finished : List (Nat × Bool)
deriving Repr, DecidableEq

/-- runNext (rssFetcher.js lines 129-140): if the queue is nonempty and
fewer than n operations are active, shift the queue head and start it. -/
def runNext (n : Nat) (s : LimiterState) : LimiterState :=
  match s.queue with
  | [] => s
  | op :: rest =>
    if s.running.length < n then
      { s with queue := rest
               running := s.running ++ [op]
               admitted := s.admitted ++ [op] }
    else s

/-- Submission (rssFetcher.js lines 142-145): push onto the queue, then
call runNext once. -/
def submitOp (n : Nat) (s : LimiterState) (op : Nat) : LimiterState :=
  runNext n { s with queue := s.queue ++ [op] }

/-- Settlement of a running operation with outcome ok (resolution or
rejection): the finally block (rssFetcher.js lines 136-139) decrements
active and calls runNext once; the outcome reaches only this operation
through its own promise. -/
def finishOp (n : Nat) (s : LimiterState) (op : Nat) (ok : Bool) : LimiterState :=
  if op ∈ s.running then
    runNext n { s with running := s.running.erase op
                       finished := s.finished ++ [(op, ok)] }
  else s

/-- An externally observable limiter event: a caller submits an operation,
or a running operation settles with an outcome. -/
inductive LimEvent where
  | sub (op : Nat)
  | fin (op : Nat) (ok : Bool)
deriving Repr, DecidableEq

/-- Apply one event to the limiter state. -/
def limStep (n : Nat) (s : LimiterState) : LimEvent → LimiterState
  | .sub op => submitOp n s op
  | .fin op ok => finishOp n s op ok

/-- Run an event sequence against a freshly created limiter
(active = 0, queue empty). -/
def limRun (n : Nat) (events : List LimEvent) : LimiterState :=
  events.foldl (limStep n) ⟨[], [], [], []⟩

/-- The operations an event sequence submits, in submission order. -/
def subsOf (events : List LimEvent) : List Nat :=
  events.filterMap (fun e => match e with | .sub op => some op | .fin _ _ => none)

lemma runNext_running_le (n : Nat) (s : LimiterState)
    (h : s.running.length ≤ n) : (runNext n s).running.length ≤ n := by
  unfold runNext
  cases hq : s.queue with
  | nil => exact h
  | cons op rest =>
    by_cases hr : s.running.length < n
    · simp [hr]
      omega
    · simp [hr]
      exact h

lemma limStep_running_le (n : Nat) (s : LimiterState) (e : LimEvent)
    (h : s.running.length ≤ n) : (limStep n s e).running.length ≤ n := by
  cases e with
  | sub op => exact runNext_running_le n _ h
  | fin op ok =>
    unfold limStep finishOp
    by_cases hmem : op ∈ s.running
    · simp only [hmem, if_true]
      exact runNext_running_le n _ (le_trans (List.length_erase_le _ _) h)
    · simp only [hmem, if_false]
      exact h

lemma limRun_running_le_aux (n : Nat) (events : List LimEvent) :
    ∀ s : LimiterState, s.running.length ≤ n →
      (events.foldl (limStep n) s).running.length ≤ n := by
  induction events with
  | nil => intro s h; exact h
  | cons e rest ih =>
    intro s h
    exact ih (limStep n s e) (limStep_running_le n s e h)

lemma runNext_fifo (n : Nat) (s : LimiterState) :
    (runNext n s).admitted ++ (runNext n s).queue = s.admitted ++ s.queue := by
  unfold runNext
  cases hq : s.queue with
  | nil => simp [hq]
  | cons op rest =>
    by_cases hr : s.running.length < n
    · simp [hq, hr]
    · simp [hq, hr]

lemma runNext_set_finished (n : Nat) (s : LimiterState) (f : List (Nat × Bool)) :
    runNext n { s with finished := f } = { runNext n s with finished := f } := by
  unfold runNext
  cases hq : s.queue with
  | nil => simp [hq]
  | cons op rest =>
    by_cases hr : s.running.length < n
    · simp [hq, hr]
    · simp [hq, hr]

lemma limStep_fifo (n : Nat) (s : LimiterState) (e : LimEvent) :
    (limStep n s e).admitted ++ (limStep n s e).queue
      = s.admitted ++ s.queue ++ subsOf [e] := by
  cases e with
  | sub op =>
    show (submitOp n s op).admitted ++ (submitOp n s op).queue = _
    unfold submitOp
    rw [runNext_fifo]
    simp [subsOf]
  | fin op ok =>
    show (finishOp n s op ok).admitted ++ (finishOp n s op ok).queue = _
    unfold finishOp
    by_cases hmem : op ∈ s.running
    · simp only [hmem, if_true]
      rw [runNext_fifo]
      simp [subsOf]
    · simp only [hmem, if_false]
      simp [subsOf]

lemma subsOf_cons (e : LimEvent) (rest : List LimEvent) :
    subsOf (e :: rest) = subsOf [e] ++ subsOf rest := by
  cases e <;> simp [subsOf]

lemma limRun_fifo_aux (n : Nat) (events : List LimEvent) :
    ∀ s : LimiterState,
      (events.foldl (limStep n) s).admitted ++ (events.foldl (limStep n) s).queue
        = s.admitted ++ s.queue ++ subsOf events := by
  induction events with
  | nil => intro s; simp [subsOf]
  | cons e rest ih =>
    intro s
    rw [List.foldl_cons, ih (limStep n s e), limStep_fifo, subsOf_cons e rest]
    simp [List.append_assoc]

/-- C5: the concurrency limiter contract.  For every admission width n and
event sequence: (1) at most n operations are ever in flight; (2) the
admission log followed by the pending queue is exactly the submission
sequence, so operations are admitted strictly in FIFO submission order;
(3) settling an operation updates the queue, the in-flight set and the
admission log identically whether the operation resolved or rejected - a
rejection is recorded only in that operation's own outcome entry and
neither blocks nor cancels queued or running siblings. -/
theorem createLimiter_contract (n : Nat) (events : List LimEvent) :
    (limRun n events).running.length ≤ n ∧
    (limRun n events).admitted ++ (limRun n events).queue = subsOf events ∧
    (∀ (s : LimiterState) (op : Nat) (ok1 ok2 : Bool),
      (finishOp n s op ok1).queue = (finishOp n s op ok2).queue ∧
      (finishOp n s op ok1).running = (finishOp n s op ok2).running ∧
      (finishOp n s op ok1).admitted = (finishOp n s op ok2).admitted) := by
  refine ⟨limRun_running_le_aux n events ⟨[], [], [], []⟩ (by simp), ?_, ?_⟩
  · have := limRun_fifo_aux n events ⟨[], [], [], []⟩
    simpa [limRun] using this
  · intro s op ok1 ok2
    unfold finishOp
    by_cases hmem : op ∈ s.running
    · simp only [hmem, if_true]
      rw [runNext_set_finished n { s with running := s.running.erase op }
            (s.finished ++ [(op, ok1)]),
          runNext_set_finished n { s with running := s.running.erase op }
            (s.finished ++ [(op, ok2)])]
      exact ⟨rfl, rfl, rfl⟩
    · simp [hmem]

/-- The backoff delay before retry number attempt + 1: base 1000 ms times
2 to the power attempt - 1 (rssFetcher.js line 292). -/
def retryDelayMs (attempt : Nat) : Nat := 1000 * 2 ^ (attempt - 1)

/-- The attempt loop of fetchRSS (rssFetcher.js lines 250-297), modelled
against an oracle giving each attempt result: some articles when
parser.parseURL succeeds and the items are processed into articles, none
when the fetch throws.  Returns the fetched articles together with the
list of backoff delays slept, in order.  On success the loop returns the
articles at once; on failure with attempts left it sleeps the exponential
delay and retries; after the last failed attempt it returns the empty
list (line 300) instead of propagating the failure. -/
def fetchRSSLoop (oracle : Nat → Option (List Article)) :
    Nat → Nat → List Article × List Nat
  | _, 0 => ([], [])
  | attempt, remaining + 1 =>
    match oracle attempt with
    | some arts => (arts, [])
    | none =>
      if remaining = 0 then ([], [])
      else
        let p := fetchRSSLoop oracle (attempt + 1) remaining
        (p.1, retryDelayMs attempt :: p.2)

/-- fetchRSS with its retry budget (rssFetcher.js line 246, default
maxRetries = 3): run the attempt loop from attempt 1. -/
def fetchRSS (oracle : Nat → Option (List Article)) (maxRetries : Nat) :
    List Article × List Nat :=
  fetchRSSLoop oracle 1 maxRetries

/-- C6: the retry contract of fetchRSS at the pipeline budget of 3
attempts.  Success on attempt k returns that attempt's articles after
exactly the backoff delays 1000 times 2 to the power of each earlier
failed attempt minus 1; failing all three attempts sleeps 1000 ms then
2000 ms and returns the empty list rather than propagating the failure;
and the result depends only on the first three attempt outcomes, so no
fourth attempt is ever consulted. -/
theorem fetchRSS_retry_contract (oracle : Nat → Option (List Article)) :
    (∀ arts, oracle 1 = some arts → fetchRSS oracle 3 = (arts, [])) ∧
    (∀ arts, oracle 1 = none → oracle 2 = some arts →
      fetchRSS oracle 3 = (arts, [1000])) ∧
    (∀ arts, oracle 1 = none → oracle 2 = none → oracle 3 = some arts →
      fetchRSS oracle 3 = (arts, [1000, 2000])) ∧
    (oracle 1 = none → oracle 2 = none → oracle 3 = none →
      fetchRSS oracle 3 = ([], [1000, 2000])) ∧
    (∀ oracle2 : Nat → Option (List Article),
      oracle 1 = oracle2 1 → oracle 2 = oracle2 2 → oracle 3 = oracle2 3 →
      fetchRSS oracle 3 = fetchRSS oracle2 3) := by
  refine ⟨?_, ?_, ?_, ?_, ?_⟩
  · intro arts h1
    simp [fetchRSS, fetchRSSLoop, h1]
  · intro arts h1 h2
    simp [fetchRSS, fetchRSSLoop, h1, h2, retryDelayMs]
  · intro arts h1 h2 h3
    simp [fetchRSS, fetchRSSLoop, h1, h2, h3, retryDelayMs]
  · intro h1 h2 h3
    simp [fetchRSS, fetchRSSLoop, h1, h2, h3, retryDelayMs]
  · intro oracle2 h1 h2 h3
    simp only [fetchRSS, fetchRSSLoop, h1, h2, h3]

/-- C6 witness: an oracle that fails every attempt yields the empty list
after backoffs of 1000 ms and 2000 ms. -/
theorem fetchRSS_retry_contract_witness :
    fetchRSS (fun _ => none) 3 = ([], [1000, 2000]) :=
  (fetchRSS_retry_contract (fun _ => none)).2.2.2.1 rfl rfl rfl

/-- Outcome of one scrape target as seen by scrapeNewsroom
(newsroomScraper.js lines 11-40): the fetch threw or timed out (caught at
line 36), the response was not ok (line 21), or the page parsed into a
list of articles. -/
inductive ScrapeOutcome where
  | fetchFailed
  | httpError (status : Nat)
  | parsed (articles : List Article)
deriving Repr, DecidableEq

/-- scrapeNewsroom (newsroomScraper.js lines 11-40): a thrown fetch or a
non-ok response yields the empty list; a parsed page yields the parsed
articles each tagged with the source name and the competitor-intel
category (lines 31-35). -/
def scrapeNewsroom (outcome : ScrapeOutcome) (sourceName : String) : List Article :=
  match outcome with
  | .fetchFailed => []
  | .httpError _ => []
  | .parsed arts =>
      arts.map (fun a => { a with source := some sourceName
                                  category := some "competitor-intel" })

/-- The external inputs of one fetch phase: per-RSS-source attempt oracles
and the three scraper outcomes. -/
structure FetchEnv where
  rssOracles : List (Nat → Option (List Article))
  rocketOutcome : ScrapeOutcome
  blendOutcome : ScrapeOutcome
  iceOutcome : ScrapeOutcome

/-- The article list one scraper pass contributes. -/
def scraperArticlesOf (env : FetchEnv) : List Article :=
  scrapeNewsroom env.rocketOutcome "Rocket Companies Newsroom" ++
  scrapeNewsroom env.blendOutcome "Blend Newsroom" ++
  scrapeNewsroom env.iceOutcome "ICE Mortgage Technology"

/-- fetchAllFeeds (rssFetcher.js lines 306-340): every configured RSS
source goes through fetchRSS (through the limiter, which preserves the
Promise.all result order), the three scrapers run, and the run returns
the concatenation of all per-source results. -/
def fetchAllFeeds (env : FetchEnv) : List Article :=
  (env.rssOracles.map (fun oracle => (fetchRSS oracle 3).1)).flatten ++
    scraperArticlesOf env

/-- C4: partial-failure isolation of the fetch phase.  The result is the
concatenation of every source's own contribution, so its total count is
the sum of the per-source counts; a source whose every attempt fails
contributes the empty list, as does a scraper whose fetch throws or gets
a non-ok response; hence failures subtract exactly the failing source's
contribution and never disturb sibling sources or abort the phase. -/
theorem fetchAllFeeds_partial_failure_isolation (env : FetchEnv) :
    (fetchAllFeeds env).length
      = (env.rssOracles.map (fun oracle => (fetchRSS oracle 3).1.length)).sum
        + (scraperArticlesOf env).length ∧
    (∀ oracle : Nat → Option (List Article), (∀ i, oracle i = none) →
      (fetchRSS oracle 3).1 = []) ∧
    (∀ name, scrapeNewsroom .fetchFailed name = []) ∧
    (∀ status name, scrapeNewsroom (.httpError status) name = []) := by
  refine ⟨?_, ?_, fun _ => rfl, fun _ _ => rfl⟩
  · rw [fetchAllFeeds, List.length_append, List.length_flatten, List.map_map]
    rfl
  · intro oracle h
    have := (fetchRSS_retry_contract oracle).2.2.2.1 (h 1) (h 2) (h 3)
    rw [this]

/-- Oracle of an RSS source whose fetch fails on every attempt. -/
def failingOracle : Nat → Option (List Article) := fun _ => none

/-- Oracle of an RSS source succeeding at once with one sample article. -/
def okOracle : Nat → Option (List Article) := fun _ => some [sampleArticle]

/-- Concrete fetch environment: one failing RSS source, one succeeding RSS
source, a failing scraper and two succeeding scrapers. -/
def mixedFetchEnv : FetchEnv :=
  { rssOracles := [failingOracle, okOracle]
    rocketOutcome := .fetchFailed
    blendOutcome := .parsed [noLinkArticle]
    iceOutcome := .httpError 503 }

/-- C4 witness: in the mixed environment the failing source contributes
nothing and the total equals the sum over the successful sources. -/
theorem fetchAllFeeds_partial_failure_isolation_witness :
    (fetchRSS failingOracle 3).1 = [] ∧
    (fetchAllFeeds mixedFetchEnv).length
      = (mixedFetchEnv.rssOracles.map
          (fun oracle => (fetchRSS oracle 3).1.length)).sum
        + (scraperArticlesOf mixedFetchEnv).length :=
  ⟨(fetchAllFeeds_partial_failure_isolation mixedFetchEnv).2.1 failingOracle
      (fun _ => rfl),
    (fetchAllFeeds_partial_failure_isolation mixedFetchEnv).1⟩

/-- An insights object as cached or returned by the insights lookup paths
of db.js: the generator output shape plus the optional cachedAt stamp
added on caching (db.js lines 294-297). -/
structure CachedInsights where
  success : Bool
  tldr : List String
  recommendedActions : List String
  themes : List String
  articleCount : Nat
  generatedAt : Option Int
  cachedAt : Option Int
deriving Repr, DecidableEq

/-- A cache entry wraps the value with its insertion timestamp
(db.js lines 254-257). -/
structure CacheEntry where
  value : CachedInsights
  timestamp : Int
deriving Repr, DecidableEq

/-- The LRUCache of db.js lines 215-282.  The entries list models the
JavaScript Map in its insertion order: the head is the oldest (least
recently used) entry, the tail the most recently used. -/
structure LRUCache where
  maxSize : Nat
  ttlMs : Int
  entries : List (String × CacheEntry)
deriving Repr, DecidableEq

/-- The get method (db.js lines 222-239): a miss returns nothing; a hit
past the TTL deletes the entry and returns nothing; a live hit moves the
entry to the most-recently-used end and returns its value.  Returns the
value together with the successor cache state. -/
def LRUCache.get (c : LRUCache) (key : String) (now : Int) :
    Option CachedInsights × LRUCache :=
  match c.entries.find? (fun q => q.1 = key) with
  | none => (none, c)
  | some e =>
    if c.ttlMs < now - e.2.timestamp then
      (none, { c with entries := c.entries.filter (fun q => q.1 ≠ key) })
    else
      (some e.2.value,
        { c with entries := c.entries.filter (fun q => q.1 ≠ key) ++ [(key, e.2)] })

/-- The set method (db.js lines 241-258): drop any existing entry for the
key, evict the head (oldest) entry when still at capacity, then append the
new entry at the most-recently-used end with the current timestamp. -/
def LRUCache.set (c : LRUCache) (key : String) (v : CachedInsights) (now : Int) :
    LRUCache :=
  let without := c.entries.filter (fun q => q.1 ≠ key)
  let evicted := if c.maxSize ≤ without.length then without.tail else without
  { c with entries := evicted ++ [(key, { value := v, timestamp := now })] }

/-- The delete method (db.js lines 260-262). -/
def LRUCache.deleteKey (c : LRUCache) (key : String) : LRUCache :=
  { c with entries := c.entries.filter (fun q => q.1 ≠ key) }

/-- The clear method (db.js lines 264-266). -/
def LRUCache.clearAll (c : LRUCache) : LRUCache := { c with entries := [] }

/-- The operations a client can run against the insights cache. -/
inductive CacheOp where
  | getOp (key : String) (now : Int)
  | setOp (key : String) (v : CachedInsights) (now : Int)
  | delOp (key : String)
  | clearOp
deriving Repr

/-- Apply one cache operation. -/
def LRUCache.applyOp (c : LRUCache) : CacheOp → LRUCache
  | .getOp k now => (c.get k now).2
  | .setOp k v now => c.set k v now
  | .delOp k => c.deleteKey k
  | .clearOp => c.clearAll

/-- The insights cache instance of db.js line 285: capacity 10 entries,
time to live 24 hours. -/
def insightsCache : LRUCache :=
  { maxSize := 10, ttlMs := 24 * 60 * 60 * 1000, entries := [] }

/-- Run a sequence of operations against the freshly constructed cache. -/
def runCacheOps (ops : List CacheOp) : LRUCache :=
  ops.foldl LRUCache.applyOp insightsCache

lemma filter_length_lt_of_find? (l : List (String × CacheEntry)) (key : String)
    (e : String × CacheEntry) (h : l.find? (fun q => q.1 = key) = some e) :
    (l.filter (fun q => q.1 ≠ key)).length < l.length := by
  have hmem : e ∈ l := List.mem_of_find?_eq_some h
  have hkey : e.1 = key := by simpa using List.find?_some h
  rw [List.length_filter_lt_length_iff_exists]
  exact ⟨e, hmem, by simp [hkey]⟩

lemma LRUCache.get_entries_le (c : LRUCache) (key : String) (now : Int) :
    ((c.get key now).2).entries.length ≤ c.entries.length := by
  unfold LRUCache.get
  cases hf : c.entries.find? (fun q => q.1 = key) with
  | none => simp
  | some e =>
    by_cases ht : c.ttlMs < now - e.2.timestamp
    · simp only [ht, if_true]
      exact List.length_filter_le _ _
    · simp only [ht, if_false]
      have := filter_length_lt_of_find? c.entries key e hf
      simp only [List.length_append, List.length_cons, List.length_nil]
      omega

lemma LRUCache.set_entries_le (c : LRUCache) (key : String) (v : CachedInsights)
    (now : Int) (hmax : 0 < c.maxSize) (h : c.entries.length ≤ c.maxSize) :
    (c.set key v now).entries.length ≤ c.maxSize := by
  unfold LRUCache.set
  have hfle := List.length_filter_le (fun q => q.1 ≠ key) c.entries
  by_cases hcap : c.maxSize ≤ (c.entries.filter (fun q => q.1 ≠ key)).length
  · simp only [hcap, if_true, List.length_append, List.length_cons, List.length_nil]
    have : (c.entries.filter (fun q => q.1 ≠ key)).tail.length
        = (c.entries.filter (fun q => q.1 ≠ key)).length - 1 := List.length_tail _
    omega
  · simp only [hcap, if_false, List.length_append, List.length_cons, List.length_nil]
    omega

lemma LRUCache.applyOp_bound (c : LRUCache) (op : CacheOp)
    (hmax : 0 < c.maxSize) (h : c.entries.length ≤ c.maxSize) :
    (c.applyOp op).entries.length ≤ c.maxSize := by
  cases op with
  | getOp k now => exact le_trans (LRUCache.get_entries_le c k now) h
  | setOp k v now => exact LRUCache.set_entries_le c k v now hmax h
  | delOp k => exact le_trans (List.length_filter_le _ _) h
  | clearOp => simp [LRUCache.applyOp, LRUCache.clearAll]

lemma LRUCache.applyOp_maxSize (c : LRUCache) (op : CacheOp) :
    (c.applyOp op).maxSize = c.maxSize := by
  cases op with
  | getOp k now =>
    show ((c.get k now).2).maxSize = c.maxSize
    unfold LRUCache.get
    cases hf : c.entries.find? (fun q => q.1 = k) with
    | none => simp [hf]
    | some e =>
      by_cases ht : c.ttlMs < now - e.2.timestamp
      · simp [hf, ht]
      · simp [hf, ht]
  | setOp k v now => rfl
  | delOp k => rfl
  | clearOp => rfl

lemma runCacheOps_bound_aux (ops : List CacheOp) :
    ∀ c : LRUCache, c.maxSize = 10 → c.entries.length ≤ 10 →
      (ops.foldl LRUCache.applyOp c).entries.length ≤ 10 := by
  induction ops with
  | nil => intro c _ h; exact h
  | cons op rest ih =>
    intro c hmax h
    refine ih (c.applyOp op) ?_ ?_
    · rw [LRUCache.applyOp_maxSize, hmax]
    · have := LRUCache.applyOp_bound c op (by omega) (by omega)
      omega

/-- C8: the volatile insights cache.  (1) The cache built at db.js line 285
has capacity 10 and TTL 24 hours, and no operation sequence ever leaves it
with more than 10 entries.  (2) A lookup of an entry older than the TTL
removes the entry and returns nothing.  (3) A lookup returns a value only
from an entry whose age is at most the TTL, and it returns that entry's
stored value.  (4) Inserting a new key while at capacity drops the head
entry, which is the least recently used one, and appends the new entry at
the most-recently-used end. -/
theorem lruCache_capacity_ttl_eviction (ops : List CacheOp) (key : String)
    (v : CachedInsights) (now : Int) :
    (insightsCache.maxSize = 10 ∧ insightsCache.ttlMs = 86400000) ∧
    (runCacheOps ops).entries.length ≤ 10 ∧
    (∀ (c : LRUCache) (e : String × CacheEntry),
      c.entries.find? (fun q => q.1 = key) = some e →
      c.ttlMs < now - e.2.timestamp →
      (c.get key now).1 = none ∧
      (c.get key now).2.entries = c.entries.filter (fun q => q.1 ≠ key)) ∧
    (∀ (c : LRUCache) (r : CachedInsights), (c.get key now).1 = some r →
      ∃ e, c.entries.find? (fun q => q.1 = key) = some e ∧
        now - e.2.timestamp ≤ c.ttlMs ∧ r = e.2.value) ∧
    (∀ c : LRUCache, c.entries.find? (fun q => q.1 = key) = none →
      c.entries.length = c.maxSize → 0 < c.maxSize →
      (c.set key v now).entries
        = c.entries.tail ++ [(key, { value := v, timestamp := now })]) := by
  refine ⟨⟨rfl, rfl⟩, runCacheOps_bound_aux ops insightsCache rfl (by simp [insightsCache]), ?_, ?_, ?_⟩
  · intro c e hf ht
    unfold LRUCache.get
    rw [hf]
    simp [ht]
  · intro c r hr
    unfold LRUCache.get at hr
    cases hf : c.entries.find? (fun q => q.1 = key) with
    | none => rw [hf] at hr; cases hr
    | some e =>
      rw [hf] at hr
      by_cases ht : c.ttlMs < now - e.2.timestamp
      · simp only [ht, if_true] at hr
        cases hr
      · simp only [ht, if_false] at hr
        have hre : e.2.value = r := by simpa using hr
        exact ⟨e, rfl, by omega, hre.symm⟩
  · intro c hf hlen hmax
    unfold LRUCache.set
    have hnokey : c.entries.filter (fun q => !decide (q.1 = key)) = c.entries := by
      apply List.filter_eq_self.mpr
      intro q hq
      have := List.find?_eq_none.mp hf q hq
      simpa using this
    simp [hnokey, hlen]

/-- A cache entry two full days old. -/
def staleEntryCache : LRUCache :=
  { maxSize := 10, ttlMs := 86400000,
    entries := [("alpha",
      { value := { success := true, tldr := ["old"], recommendedActions := [],
                   themes := ["t"], articleCount := 2,
                   generatedAt := some 0, cachedAt := some 0 },
        timestamp := 0 })] }

/-- The entry staleEntryCache holds. -/
def staleEntry : String × CacheEntry :=
  ("alpha",
    { value := { success := true, tldr := ["old"], recommendedActions := [],
                 themes := ["t"], articleCount := 2,
                 generatedAt := some 0, cachedAt := some 0 },
      timestamp := 0 })

/-- C8 witness: looking the stale entry up two days later returns nothing
and removes it. -/
theorem lruCache_capacity_ttl_eviction_witness :
    (staleEntryCache.get "alpha" 172800000).1 = none ∧
    (staleEntryCache.get "alpha" 172800000).2.entries
      = staleEntryCache.entries.filter (fun q => q.1 ≠ "alpha") :=
  (lruCache_capacity_ttl_eviction [] "alpha"
      { success := true, tldr := [], recommendedActions := [], themes := [],
        articleCount := 0, generatedAt := none, cachedAt := none }
      172800000).2.2.1 staleEntryCache staleEntry (by decide) (by decide)

/-- An insights object as handed to saveInsights and archiveInsights:
the generator output shape (db.js lines 342-348 read these fields). -/
structure Insights where
  success : Bool
  tldr : List String
  recommendedActions : List String
  themes : List String
  articleCount : Nat
  generatedAt : Option Int
deriving Repr, DecidableEq

/-- A row of the insights_archive table (db.js lines 47-58). -/
structure ArchiveRow where
  id : Nat
  category : String
  tldr : List String
  recommendedActions : List String
  themes : List String
  articleCount : Nat
  dateRangeStart : Int
  dateRangeEnd : Int
  generatedAt : Int
deriving Repr, DecidableEq

/-- The insights_archive table with its SERIAL id counter. -/
structure ArchiveDB where
  rows : List ArchiveRow
  nextId : Nat
deriving Repr, DecidableEq

/-- isGeneratedRecently (db.js lines 497-503) at its default window of
3 days, and equally the SQL window generated_at greater than NOW() minus
3 days used by the archive collision check (db.js line 336) and the
recent-insights lookup (db.js line 458): both reduce to the absolute
difference now minus generatedAt being under 3 days in milliseconds. -/
def isGeneratedRecently (generatedAt now : Int) : Bool :=
  now - generatedAt < 3 * 86400000

/-- The rows the 3-day-window WHERE clause selects for a category. -/
def recentRows (rows : List ArchiveRow) (category : String) (now : Int) :
    List ArchiveRow :=
  rows.filter (fun r => r.category == category && isGeneratedRecently r.generatedAt now)

/-- Pick the row with the later generation time (ORDER BY generated_at
DESC keeps the maximum first). -/
def newerRow (a b : ArchiveRow) : ArchiveRow :=
  if a.generatedAt < b.generatedAt then b else a

/-- ORDER BY generated_at DESC LIMIT 1 over a row list: a row of maximal
generation time, if any. -/
def mostRecentRow : List ArchiveRow → Option ArchiveRow
  | [] => none
  | r :: rest =>
    match mostRecentRow rest with
    | none => some r
    | some b => some (newerRow r b)

/-- The collision query of archiveInsights (db.js lines 333-339) and the
lookup query of getTodaysInsights (db.js lines 455-461): most recent row
for the category inside the 3-day window. -/
def recentCheck (rows : List ArchiveRow) (category : String) (now : Int) :
    Option ArchiveRow :=
  mostRecentRow (recentRows rows category now)

/-- The defaulted values prepared at db.js lines 342-348: range start
falls back to 14 days before now, range end and generation time to now. -/
def preparedRangeStart (rs : Option Int) (now : Int) : Int :=
  rs.getD (now - 14 * 86400000)

/-- The UPDATE of db.js lines 353-364: overwrite the content columns of an
existing archive row in place, leaving id and category. -/
def overwriteRow (ins : Insights) (rs re : Option Int) (now : Int)
    (q : ArchiveRow) : ArchiveRow :=
  { q with tldr := ins.tldr
           recommendedActions := ins.recommendedActions
           themes := ins.themes
           articleCount := ins.articleCount
           dateRangeStart := preparedRangeStart rs now
           dateRangeEnd := re.getD now
           generatedAt := ins.generatedAt.getD now }

/-- The INSERT of db.js lines 369-375: a fresh archive row. -/
def newArchiveRow (id : Nat) (category : String) (ins : Insights)
    (rs re : Option Int) (now : Int) : ArchiveRow :=
  { id := id
    category := category
    tldr := ins.tldr
    recommendedActions := ins.recommendedActions
    themes := ins.themes
    articleCount := ins.articleCount
    dateRangeStart := preparedRangeStart rs now
    dateRangeEnd := re.getD now
    generatedAt := ins.generatedAt.getD now }

/-- archiveInsights (db.js lines 317-383): skip the aggregate category
and empty or failed insights; otherwise check the 3-day collision window
for the category and either update the found row in place or insert a new
row.  Returns the new table state and the touched row id. -/
def archiveInsights (db : ArchiveDB) (ins : Insights) (category : String)
    (dateRangeStart dateRangeEnd : Option Int) (now : Int) :
    ArchiveDB × Option Nat :=
  if category = "all" then (db, none)
  else if ins.success = false ∨ ins.themes = [] then (db, none)
  else
    match recentCheck db.rows category now with
    | some r =>
      ({ db with rows := db.rows.map (fun q =>
          if q.id = r.id then overwriteRow ins dateRangeStart dateRangeEnd now q
          else q) },
        some r.id)
    | none =>
      ({ rows := db.rows ++
            [newArchiveRow db.nextId category ins dateRangeStart dateRangeEnd now]
         nextId := db.nextId + 1 },
        some db.nextId)

lemma mostRecentRow_eq_none (l : List ArchiveRow) :
    mostRecentRow l = none ↔ l = [] := by
  cases l with
  | nil => simp [mostRecentRow]
  | cons r rest =>
    simp only [mostRecentRow]
    cases mostRecentRow rest <;> simp

lemma mostRecentRow_mem (l : List ArchiveRow) (r : ArchiveRow)
    (h : mostRecentRow l = some r) : r ∈ l := by
  induction l generalizing r with
  | nil => cases h
  | cons x rest ih =>
    simp only [mostRecentRow] at h
    cases hm : mostRecentRow rest with
    | none =>
      rw [hm] at h
      exact List.mem_cons.mpr (Or.inl (by simpa using h.symm))
    | some b =>
      rw [hm] at h
      have hb : b ∈ rest := ih b hm
      have : newerRow x b = r := by simpa using h
      rw [← this]
      unfold newerRow
      by_cases hlt : x.generatedAt < b.generatedAt
      · simp only [hlt, if_true]
        exact List.mem_cons_of_mem x hb
      · simp only [hlt, if_false]
        exact List.mem_cons_self x rest

lemma isGeneratedRecently_mono (g t1 t2 : Int)
    (h : isGeneratedRecently g t1 = false) (hle : t1 ≤ t2) :
    isGeneratedRecently g t2 = false := by
  simp only [isGeneratedRecently, decide_eq_false_iff_not, not_lt] at h ⊢
  omega

lemma recentRows_append (l1 l2 : List ArchiveRow) (c : String) (now : Int) :
    recentRows (l1 ++ l2) c now = recentRows l1 c now ++ recentRows l2 c now :=
  List.filter_append _ _

lemma recentRows_eq_nil (rows : List ArchiveRow) (c : String) (now : Int)
    (h : ∀ r ∈ rows, r.category = c → isGeneratedRecently r.generatedAt now = false) :
    recentRows rows c now = [] := by
  rw [recentRows, List.filter_eq_nil_iff]
  intro r hr
  by_cases hcat : r.category = c
  · simp [hcat, h r hr hcat]
  · simp [hcat]

/-- C2: the collision-window idempotency of the archive.  Starting from a
table whose rows all have ids below the counter and none of which is a
recent row for the category, two successive archive saves for the same
non-aggregate category, both carrying valid insights and both with
generation times inside the 3-day collision window of the second call,
leave exactly one row for that category inside the window, and that row
carries the second call's tldr, recommended actions, themes, article
count, date range and generation time. -/
theorem archiveInsights_collision_idempotent
    (db : ArchiveDB) (ins1 ins2 : Insights) (c : String)
    (rs1 re1 rs2 re2 : Option Int) (t1 t2 : Int)
    (hc : c ≠ "all")
    (h1s : ins1.success = true) (h1t : ins1.themes ≠ [])
    (h2s : ins2.success = true) (h2t : ins2.themes ≠ [])
    (hid : ∀ r ∈ db.rows, r.id < db.nextId)
    (hold : ∀ r ∈ db.rows, r.category = c →
      isGeneratedRecently r.generatedAt t1 = false)
    (ht : t1 ≤ t2)
    (hg1 : isGeneratedRecently (ins1.generatedAt.getD t1) t2 = true)
    (hg2 : isGeneratedRecently (ins2.generatedAt.getD t2) t2 = true) :
    recentRows ((archiveInsights
        (archiveInsights db ins1 c rs1 re1 t1).1 ins2 c rs2 re2 t2).1).rows c t2
      = [overwriteRow ins2 rs2 re2 t2 (newArchiveRow db.nextId c ins1 rs1 re1 t1)] ∧
    (overwriteRow ins2 rs2 re2 t2 (newArchiveRow db.nextId c ins1 rs1 re1 t1)).category = c ∧
    (overwriteRow ins2 rs2 re2 t2 (newArchiveRow db.nextId c ins1 rs1 re1 t1)).tldr = ins2.tldr ∧
    (overwriteRow ins2 rs2 re2 t2 (newArchiveRow db.nextId c ins1 rs1 re1 t1)).recommendedActions = ins2.recommendedActions ∧
    (overwriteRow ins2 rs2 re2 t2 (newArchiveRow db.nextId c ins1 rs1 re1 t1)).themes = ins2.themes ∧
    (overwriteRow ins2 rs2 re2 t2 (newArchiveRow db.nextId c ins1 rs1 re1 t1)).articleCount = ins2.articleCount ∧
    (overwriteRow ins2 rs2 re2 t2 (newArchiveRow db.nextId c ins1 rs1 re1 t1)).dateRangeStart = preparedRangeStart rs2 t2 ∧
    (overwriteRow ins2 rs2 re2 t2 (newArchiveRow db.nextId c ins1 rs1 re1 t1)).dateRangeEnd = re2.getD t2 ∧
    (overwriteRow ins2 rs2 re2 t2 (newArchiveRow db.nextId c ins1 rs1 re1 t1)).generatedAt = ins2.generatedAt.getD t2 := by
  set row1 := newArchiveRow db.nextId c ins1 rs1 re1 t1 with hrow1
  set row2 := overwriteRow ins2 rs2 re2 t2 row1 with hrow2
  refine ⟨?_, rfl, rfl, rfl, rfl, rfl, rfl, rfl, rfl⟩
  have hguard1 : ¬ (ins1.success = false ∨ ins1.themes = []) := by
    simp [h1s, h1t]
  have hguard2 : ¬ (ins2.success = false ∨ ins2.themes = []) := by
    simp [h2s, h2t]
  have hnil1 : recentRows db.rows c t1 = [] := recentRows_eq_nil db.rows c t1 hold
  have hcheck1 : recentCheck db.rows c t1 = none := by
    rw [recentCheck, hnil1]
    rfl
  have hstep1 : (archiveInsights db ins1 c rs1 re1 t1).1
      = { rows := db.rows ++ [row1], nextId := db.nextId + 1 } := by
    rw [archiveInsights]
    rw [if_neg hc, if_neg hguard1, hcheck1]
  rw [hstep1]
  have hnil2 : recentRows db.rows c t2 = [] := by
    refine recentRows_eq_nil db.rows c t2 ?_
    intro r hr hcat
    exact isGeneratedRecently_mono r.generatedAt t1 t2 (hold r hr hcat) ht
  have hrow1cat : row1.category = c := rfl
  have hrow1g : isGeneratedRecently row1.generatedAt t2 = true := hg1
  have hrec1 : recentRows (db.rows ++ [row1]) c t2 = [row1] := by
    rw [recentRows_append, hnil2]
    simp [recentRows, hrow1g, hrow1cat]
  have hcheck2 : recentCheck (db.rows ++ [row1]) c t2 = some row1 := by
    rw [recentCheck, hrec1]
    rfl
  have hstep2 : (archiveInsights
      ({ rows := db.rows ++ [row1], nextId := db.nextId + 1 } : ArchiveDB)
      ins2 c rs2 re2 t2).1
      = { rows := (db.rows ++ [row1]).map (fun q =>
            if q.id = row1.id then overwriteRow ins2 rs2 re2 t2 q else q)
          nextId := db.nextId + 1 } := by
    rw [archiveInsights]
    rw [if_neg hc, if_neg hguard2]
    simp only [hcheck2]
  rw [hstep2]
  have hmap : (db.rows ++ [row1]).map (fun q =>
      if q.id = row1.id then overwriteRow ins2 rs2 re2 t2 q else q)
      = db.rows ++ [row2] := by
    rw [List.map_append]
    congr 1
    · have hfix : ∀ q ∈ db.rows,
          (if q.id = row1.id then overwriteRow ins2 rs2 re2 t2 q else q) = id q := by
        intro q hq
        have hqid : q.id ≠ row1.id := by
          have := hid q hq
          show q.id ≠ db.nextId
          omega
        simp [hqid]
      rw [List.map_congr_left hfix, List.map_id]
    · simp [hrow2]
  rw [hmap]
  have hrow2cat : row2.category = c := rfl
  have hrow2g : isGeneratedRecently row2.generatedAt t2 = true := hg2
  rw [recentRows_append, hnil2]
  simp [recentRows, hrow2g, hrow2cat]

/-- Valid insights for the first save of the witness scenario. -/
def insightsA : Insights :=
  { success := true
    tldr := ["first"]
    recommendedActions := ["act"]
    themes := ["theme-a"]
    articleCount := 4
    generatedAt := none }

/-- Valid insights for the second save, ten minutes later. -/
def insightsB : Insights :=
  { success := true
    tldr := ["second"]
    recommendedActions := []
    themes := ["theme-b"]
    articleCount := 6
    generatedAt := none }

/-- C2 witness: two saves for category alpha ten minutes apart, starting
from an empty archive, leave exactly one in-window row carrying the second
save's fields. -/
theorem archiveInsights_collision_idempotent_witness :
    recentRows ((archiveInsights
        (archiveInsights ⟨[], 1⟩ insightsA "alpha" none none 0).1
        insightsB "alpha" none none 600000).1).rows "alpha" 600000
      = [overwriteRow insightsB none none 600000
          (newArchiveRow 1 "alpha" insightsA none none 0)] ∧
    (overwriteRow insightsB none none 600000
        (newArchiveRow 1 "alpha" insightsA none none 0)).category = "alpha" ∧
    (overwriteRow insightsB none none 600000
        (newArchiveRow 1 "alpha" insightsA none none 0)).tldr = insightsB.tldr ∧
    (overwriteRow insightsB none none 600000
        (newArchiveRow 1 "alpha" insightsA none none 0)).recommendedActions
      = insightsB.recommendedActions ∧
    (overwriteRow insightsB none none 600000
        (newArchiveRow 1 "alpha" insightsA none none 0)).themes = insightsB.themes ∧
    (overwriteRow insightsB none none 600000
        (newArchiveRow 1 "alpha" insightsA none none 0)).articleCount
      = insightsB.articleCount ∧
    (overwriteRow insightsB none none 600000
        (newArchiveRow 1 "alpha" insightsA none none 0)).dateRangeStart
      = preparedRangeStart none 600000 ∧
    (overwriteRow insightsB none none 600000
        (newArchiveRow 1 "alpha" insightsA none none 0)).dateRangeEnd
      = (none : Option Int).getD 600000 ∧
    (overwriteRow insightsB none none 600000
        (newArchiveRow 1 "alpha" insightsA none none 0)).generatedAt
      = insightsB.generatedAt.getD 600000 :=
  archiveInsights_collision_idempotent ⟨[], 1⟩ insightsA insightsB "alpha"
    none none none none 0 600000 (by decide) rfl (by decide) rfl (by decide)
    (by intro r hr; cases hr) (by intro r hr; cases hr) (by decide)
    (by decide) (by decide)

/-- The insights object rebuilt from an archive row (db.js lines 464-472):
success true, the row columns, generation time from the row. -/
def rowToInsights (r : ArchiveRow) : CachedInsights :=
  { success := true
    tldr := r.tldr
    recommendedActions := r.recommendedActions
    themes := r.themes
    articleCount := r.articleCount
    generatedAt := some r.generatedAt
    cachedAt := none }

/-- The database fallback of getTodaysInsights (db.js lines 454-485): query
the most recent archive row for the category inside the 3-day window; on a
hit rebuild the insights, populate the volatile cache with a cachedAt
stamp, and return them; otherwise return nothing. -/
def getTodaysInsightsDB (cache : LRUCache) (rows : List ArchiveRow)
    (category : String) (now : Int) : Option CachedInsights × LRUCache :=
  match recentCheck rows category now with
  | some r =>
    (some (rowToInsights r),
      cache.set category { rowToInsights r with cachedAt := some now } now)
  | none => (none, cache)

/-- getTodaysInsights (db.js lines 441-490): the aggregate category is
never served; otherwise the volatile cache is consulted first (its get
honors the TTL) and a cached value with a generation time inside the
3-day window is returned at once; in every other case the archive is
consulted through the database fallback. -/
def getTodaysInsights (cache : LRUCache) (rows : List ArchiveRow)
    (category : String) (now : Int) : Option CachedInsights × LRUCache :=
  if category = "all" then (none, cache)
  else
    match (cache.get category now).1 with
    | some cached =>
      match cached.generatedAt with
      | some g =>
        if isGeneratedRecently g now then (some cached, (cache.get category now).2)
        else getTodaysInsightsDB (cache.get category now).2 rows category now
      | none => getTodaysInsightsDB (cache.get category now).2 rows category now
    | none => getTodaysInsightsDB (cache.get category now).2 rows category now

/-- The cache holds a live (unexpired) entry for the category whose value
carries a generation time inside the 3-day window. -/
def cacheHasFresh (cache : LRUCache) (category : String) (now : Int) : Prop :=
  ∃ e, cache.entries.find? (fun q => q.1 = category) = some e ∧
    now - e.2.timestamp ≤ cache.ttlMs ∧
    ∃ g, e.2.value.generatedAt = some g ∧ isGeneratedRecently g now = true

/-- The archive holds a row for the category inside the 3-day window. -/
def archiveHasFresh (rows : List ArchiveRow) (category : String) (now : Int) : Prop :=
  recentRows rows category now ≠ []

lemma LRUCache.get_some_elim (c : LRUCache) (key : String) (now : Int)
    (v : CachedInsights) (h : (c.get key now).1 = some v) :
    ∃ e, c.entries.find? (fun q => q.1 = key) = some e ∧
      now - e.2.timestamp ≤ c.ttlMs ∧ v = e.2.value := by
  unfold LRUCache.get at h
  cases hf : c.entries.find? (fun q => q.1 = key) with
  | none => rw [hf] at h; cases h
  | some e =>
    rw [hf] at h
    by_cases ht : c.ttlMs < now - e.2.timestamp
    · simp [ht] at h
    · simp [ht] at h
      exact ⟨e, rfl, by omega, h.symm⟩

lemma LRUCache.get_hit (c : LRUCache) (key : String) (now : Int)
    (e : String × CacheEntry)
    (hf : c.entries.find? (fun q => q.1 = key) = some e)
    (hl : now - e.2.timestamp ≤ c.ttlMs) :
    (c.get key now).1 = some e.2.value := by
  unfold LRUCache.get
  rw [hf]
  have hnt : ¬ c.ttlMs < now - e.2.timestamp := by omega
  simp [hnt]

lemma cacheHasFresh_iff_of_get_some (cache : LRUCache) (category : String)
    (now : Int) (cached : CachedInsights)
    (hg : (cache.get category now).1 = some cached) :
    cacheHasFresh cache category now ↔
      ∃ g, cached.generatedAt = some g ∧ isGeneratedRecently g now = true := by
  obtain ⟨e0, hf0, hl0, hv0⟩ := LRUCache.get_some_elim cache category now cached hg
  constructor
  · rintro ⟨e, hf, hl, g, hge, hfr⟩
    rw [hf0] at hf
    have he : e = e0 := by
      injection hf with h
      exact h.symm
    subst he
    exact ⟨g, by rw [hv0]; exact hge, hfr⟩
  · rintro ⟨g, hge, hfr⟩
    refine ⟨e0, hf0, hl0, g, ?_, hfr⟩
    rw [← hv0]
    exact hge

lemma getTodaysInsightsDB_spec (cache : LRUCache) (rows : List ArchiveRow)
    (category : String) (now : Int) :
    ((getTodaysInsightsDB cache rows category now).1.isSome
        ↔ archiveHasFresh rows category now) ∧
    (∀ ins, (getTodaysInsightsDB cache rows category now).1 = some ins →
      ∃ g, ins.generatedAt = some g ∧ isGeneratedRecently g now = true) := by
  unfold getTodaysInsightsDB
  cases hr : recentCheck rows category now with
  | none =>
    have hr2 : mostRecentRow (recentRows rows category now) = none := hr
    have hnil : recentRows rows category now = [] :=
      (mostRecentRow_eq_none _).mp hr2
    constructor
    · simp [archiveHasFresh, hnil]
    · intro ins h; cases h
  | some r =>
    have hr2 : mostRecentRow (recentRows rows category now) = some r := hr
    have hmem : r ∈ recentRows rows category now := mostRecentRow_mem _ r hr2
    have hne : recentRows rows category now ≠ [] := by
      intro hnil
      rw [hnil] at hmem
      cases hmem
    have hfresh : isGeneratedRecently r.generatedAt now = true := by
      have hmem2 : r ∈ rows.filter
          (fun q => q.category == category && isGeneratedRecently q.generatedAt now) :=
        hmem
      have := List.of_mem_filter hmem2
      simp only [Bool.and_eq_true] at this
      exact this.2
    constructor
    · simp [archiveHasFresh, hne]
    · intro ins h
      have hins : ins = rowToInsights r := by
        have := h.symm
        simpa using this
      exact ⟨r.generatedAt, by rw [hins]; rfl, hfresh⟩

/-- C7 amended: for every category other than the aggregate category
"all", getTodaysInsights returns an artifact exactly when the volatile
cache holds an unexpired entry whose generation timestamp is within the
3-day freshness window of the current time, or the persistent archive
holds a row for the category within that window; any returned artifact
carries a generation timestamp within the window.  (The window is an
absolute 3-day span of the current instant; for the category "all" the
lookup returns nothing regardless of freshness.) -/
theorem getTodaysInsights_freshness_window (cache : LRUCache)
    (rows : List ArchiveRow) (category : String) (now : Int)
    (hc : category ≠ "all") :
    ((getTodaysInsights cache rows category now).1.isSome
        ↔ (cacheHasFresh cache category now ∨ archiveHasFresh rows category now)) ∧
    (∀ ins, (getTodaysInsights cache rows category now).1 = some ins →
      ∃ g, ins.generatedAt = some g ∧ isGeneratedRecently g now = true) := by
  unfold getTodaysInsights
  rw [if_neg hc]
  cases hg : (cache.get category now).1 with
  | none =>
    have hnc : ¬ cacheHasFresh cache category now := by
      rintro ⟨e, hf, hl, g, hgen, hfr⟩
      rw [LRUCache.get_hit cache category now e hf hl] at hg
      cases hg
    obtain ⟨hdb1, hdb2⟩ :=
      getTodaysInsightsDB_spec ((cache.get category now).2) rows category now
    refine ⟨?_, hdb2⟩
    rw [hdb1]
    constructor
    · exact Or.inr
    · rintro (h | h)
      · exact absurd h hnc
      · exact h
  | some cached =>
    dsimp only
    have hiff := cacheHasFresh_iff_of_get_some cache category now cached hg
    cases hgen : cached.generatedAt with
    | none =>
      dsimp only
      have hnc : ¬ cacheHasFresh cache category now := by
        rw [hiff]
        rintro ⟨g, hge, _⟩
        rw [hgen] at hge
        cases hge
      obtain ⟨hdb1, hdb2⟩ :=
        getTodaysInsightsDB_spec ((cache.get category now).2) rows category now
      refine ⟨?_, hdb2⟩
      rw [hdb1]
      constructor
      · exact Or.inr
      · rintro (h | h)
        · exact absurd h hnc
        · exact h
    | some g =>
      dsimp only
      by_cases hfr : isGeneratedRecently g now = true
      · rw [if_pos hfr]
        constructor
        · simp only [Option.isSome_some, true_iff]
          exact Or.inl (hiff.mpr ⟨g, hgen, hfr⟩)
        · intro ins hins
          have hic : ins = cached := by
            have := hins.symm
            simpa using this
          exact ⟨g, by rw [hic]; exact hgen, hfr⟩
      · rw [if_neg hfr]
        have hnc : ¬ cacheHasFresh cache category now := by
          rw [hiff]
          rintro ⟨g2, hge2, hfr2⟩
          rw [hgen] at hge2
          injection hge2 with hgg
          rw [← hgg] at hfr2
          exact hfr hfr2
        obtain ⟨hdb1, hdb2⟩ :=
          getTodaysInsightsDB_spec ((cache.get category now).2) rows category now
        refine ⟨?_, hdb2⟩
        rw [hdb1]
        constructor
        · exact Or.inr
        · rintro (h | h)
          · exact absurd h hnc
          · exact h

/-- A cached insights value generated at the current instant. -/
def freshCachedValue : CachedInsights :=
  { success := true
    tldr := ["x"]
    recommendedActions := []
    themes := ["theme"]
    articleCount := 3
    generatedAt := some 0
    cachedAt := some 0 }

/-- A cache whose only entry is a fresh artifact under the aggregate key. -/
def freshAllCache : LRUCache :=
  { maxSize := 10
    ttlMs := 86400000
    entries := [("all", { value := freshCachedValue, timestamp := 0 })] }

/-- C7 counterexample: the cache holds an unexpired artifact for category
"all" whose generation timestamp is inside the freshness window, yet
getTodaysInsights returns nothing for "all" - db.js lines 443-445 bail
out for the aggregate category before any freshness check, so the
claimed if-and-only-if fails there. -/
theorem getTodaysInsights_all_ignores_fresh :
    (getTodaysInsights freshAllCache [] "all" 0).1 = none ∧
    (freshAllCache.get "all" 0).1 = some freshCachedValue ∧
    isGeneratedRecently 0 0 = true := by
  decide

/-- The fresh cache under a specific category key. -/
def freshAlphaCache : LRUCache :=
  { maxSize := 10
    ttlMs := 86400000
    entries := [("alpha", { value := freshCachedValue, timestamp := 0 })] }

/-- C7 witness: for the concrete category alpha the amended equivalence
holds at the fresh cache and the empty archive. -/
theorem getTodaysInsights_freshness_window_witness :
    ((getTodaysInsights freshAlphaCache [] "alpha" 0).1.isSome
        ↔ (cacheHasFresh freshAlphaCache "alpha" 0 ∨ archiveHasFresh [] "alpha" 0)) ∧
    (∀ ins, (getTodaysInsights freshAlphaCache [] "alpha" 0).1 = some ins →
      ∃ g, ins.generatedAt = some g ∧ isGeneratedRecently g 0 = true) :=
  getTodaysInsights_freshness_window freshAlphaCache [] "alpha" 0 (by decide)

end SignalDigest
